import Mathlib

/-!
# Verification of the item_backup_simple core against its specification

This file gives a shallow embedding, in Lean 4, of the parts of the
`item_backup_item` Python package that the specification's claims are about:

* the disk-space ledger (`control/disk_space_manager.py`,
  `config/disk_space_config.py`),
* the asynchronous upload service (`control/async_upload_service.py`),
* the per-item processing pipeline (`control/single_file_processor.py`) and
  the upload-success cleanup (`control/file_processor_coordinator.py`),
* the error-recovery manager (`utils/error_recovery.py`),
* the zip service and its fixed salt table (`service/zip_service.py`,
  `config/zip_config.py`).

Python machine integers are modelled as `Nat`/`Int` (Python ints are
unbounded, so no wrap-around modelling is needed).  The reservation
dictionary `_reservations : dict[str, int]` is modelled as an insertion-
ordered association list, mirroring the ordered semantics of Python dicts.
External collaborators (hashing, archive encode/decode, the upload
transport, the database) are modelled by explicit outcome parameters: each
run of the code is a function of the collaborator results it observes.
Fallible Python code (raising exceptions) is modelled with `Option`/`Except`
or an explicit failure branch, following the `try`/`except` structure of the
source.
-/

namespace ItemBackup

/-! ## Reservation ledger

`DiskSpaceManager._reservations` is a `dict[str, int]` mapping a monitored
path to the total bytes currently reserved on it.  We model it as an
insertion-ordered association list, with the three dictionary operations the
source uses: `get(path, 0)`, item assignment, and `del`. -/

abbrev Ledger := List (String × Nat)

/-- `self._reservations.get(path, 0)`. -/
def resGet (l : Ledger) (path : String) : Nat :=
  match l.find? (fun kv => kv.fst == path) with
  | some kv => kv.snd
  | none => 0

/-- `self._reservations[path] = v` (replace in place if present, else append,
matching Python dict insertion-order semantics). -/
def resSet (l : Ledger) (path : String) (v : Nat) : Ledger :=
  if l.any (fun kv => kv.fst == path) then
    l.map (fun kv => if kv.fst == path then (path, v) else kv)
  else
    l ++ [(path, v)]

/-- `del self._reservations[path]`. -/
def resErase (l : Ledger) (path : String) : Ledger :=
  l.filter (fun kv => kv.fst != path)

/-- `path in self._reservations`. -/
def resContains (l : Ledger) (path : String) : Bool :=
  l.any (fun kv => kv.fst == path)

/-! ## Configuration (`config/disk_space_config.py`) -/

/-- `DiskSpaceConfig`.  Only the fields that the admission and reservation
logic reads are kept.  `safety_margin_percent` is `10.0` (a float) in the
source; the margin computation `int(required_bytes * (percent / 100))`
truncates toward zero, which we model as `Nat` floor division by `100`. -/
structure DiskSpaceConfig where
  safetyMarginPercent : Nat := 10
  enabled : Bool := true
deriving DecidableEq, Repr

/-- `DiskSpaceConfig.get_required_space_with_margin`:
`required_bytes + int(required_bytes * (safety_margin_percent / 100))`. -/
def DiskSpaceConfig.getRequiredSpaceWithMargin
    (c : DiskSpaceConfig) (requiredBytes : Nat) : Nat :=
  requiredBytes + requiredBytes * c.safetyMarginPercent / 100

/-! ## Disk queries and admission (`control/disk_space_manager.py`) -/

/-- The result of `shutil.disk_usage` inside `get_disk_space`: the
OS-reported totals for the volume.  `get_disk_space` returns `None` on any
exception, which we model as `Option RawDiskUsage` at the call sites. -/
structure RawDiskUsage where
  totalBytes : Nat
  usedBytes : Nat
deriving DecidableEq, Repr

/-- The effective-usage record built by `check_space_status`:
`effective_used = used_bytes + reserved` and
`effective_free = total_bytes - effective_used` (Python ints, so the free
figure may go negative; we use `Int`). -/
structure DiskSpaceInfo where
  totalBytes : Int
  usedBytes : Int
  freeBytes : Int
  path : String
deriving DecidableEq, Repr

/-- `DiskSpaceManager.check_space_status`, restricted to the data it hands
to `can_process_file`: the effective info object (status classification and
callback notification do not feed into admission).  A failed disk query
(`space_info is None`) yields `none`, the `UNAVAILABLE` branch. -/
def checkSpaceStatus (res : Ledger) (disk : Option RawDiskUsage)
    (checkPath : String) : Option DiskSpaceInfo :=
  match disk with
  | none => none
  | some d =>
    let reserved := resGet res checkPath
    let effectiveUsed : Int := (d.usedBytes : Int) + (reserved : Int)
    let effectiveFree : Int := (d.totalBytes : Int) - effectiveUsed
    some { totalBytes := (d.totalBytes : Int)
           usedBytes := effectiveUsed
           freeBytes := effectiveFree
           path := checkPath }

/-- `DiskSpaceManager.can_process_file`: admission check.  Returns
`(can_process, space_info)`; on an unavailable disk it returns
`(False, None)`; otherwise `can_process = space_info.free_bytes >=
required_with_margin`, where `space_info` carries the effective (reserved-
inclusive) figures. -/
def canProcessFile (cfg : DiskSpaceConfig) (res : Ledger)
    (disk : Option RawDiskUsage) (requiredBytes : Nat) (path : String) :
    Bool × Option DiskSpaceInfo :=
  match checkSpaceStatus res disk path with
  | none => (false, none)
  | some info =>
    let requiredWithMargin := cfg.getRequiredSpaceWithMargin requiredBytes
    (decide (info.freeBytes ≥ (requiredWithMargin : Int)), some info)

/-- `SpaceReservation` (`reserved_bytes`, `path`, `released`); the
`created_at` timestamp plays no role in any claim and is omitted. -/
structure SpaceReservation where
  reservedBytes : Nat
  path : String
  released : Bool := false
deriving DecidableEq, Repr

/-- `DiskSpaceManager.reserve_space`.  When the manager is disabled it
returns a fresh reservation without touching the ledger.  Otherwise it
checks `can_process_file` and then re-checks inside the lock; note that the
re-check reuses `space_info.used_bytes`, which already includes the
reserved bytes, so the locked check double-counts the existing reservation
exactly as the source does. -/
def reserveSpace (cfg : DiskSpaceConfig) (res : Ledger)
    (disk : Option RawDiskUsage) (path : String) (bytes : Nat) :
    Option SpaceReservation × Ledger :=
  if cfg.enabled = false then
    (some { reservedBytes := bytes, path := path, released := false }, res)
  else
    match canProcessFile cfg res disk bytes path with
    | (false, _) => (none, res)
    | (true, none) => (none, res)
    | (true, some info) =>
      let currentReserved := resGet res path
      let effectiveFree : Int :=
        info.totalBytes - (info.usedBytes + (currentReserved : Int))
      let requiredWithMargin := cfg.getRequiredSpaceWithMargin bytes
      if effectiveFree < (requiredWithMargin : Int) then
        (none, res)
      else
        (some { reservedBytes := bytes, path := path, released := false },
         resSet res path (currentReserved + bytes))

/-- `DiskSpaceManager.release_space`: `new_reserved = max(0, current -
bytes)` (Nat subtraction already floors at zero), written back and then
deleted when zero.  The source assigns the zero and immediately `del`s the
key; the net effect is that the key is absent. -/
def releaseSpace (res : Ledger) (path : String) (bytes : Nat) : Ledger :=
  let currentReserved := resGet res path
  let newReserved := currentReserved - bytes
  if newReserved = 0 then resErase res path else resSet res path newReserved

/-- `DiskSpaceManager.release_reservation`: early-returns when the
reservation is already released, otherwise releases its bytes and marks the
reservation released.  Returns the updated ledger together with the mutated
reservation object. -/
def releaseReservation (res : Ledger) (r : SpaceReservation) :
    Ledger × SpaceReservation :=
  if r.released then (res, r)
  else (releaseSpace res r.path r.reservedBytes, { r with released := true })

/-! ## Asynchronous upload service (`control/async_upload_service.py`) -/

/-- `UploadStatus`. -/
inductive UploadStatus where
  | pending
  | uploading
  | success
  | failed
  | retrying
deriving DecidableEq, Repr

/-- `UploadTask`.  Timestamps (`created_at`, `started_at`, `completed_at`)
and the raw `result` dict are bookkeeping that no claim mentions; the
retry/status machinery is kept in full. -/
structure UploadTask where
  itemId : Nat
  filePath : String
  fileSize : Nat
  retryCount : Nat := 0
  maxRetries : Nat := 5
  status : UploadStatus := UploadStatus.pending
deriving DecidableEq, Repr

/-- `UploadTask.can_retry`: `retry_count < max_retries`. -/
def UploadTask.canRetry (t : UploadTask) : Bool :=
  t.retryCount < t.maxRetries

/-- `UploadTask.increment_retry`: bumps the count and moves to RETRYING. -/
def UploadTask.incrementRetry (t : UploadTask) : UploadTask :=
  { t with retryCount := t.retryCount + 1, status := UploadStatus.retrying }

/-- The collaborator outcomes one call to `_execute_upload` observes:
whether `Path(task.file_path).exists()` and the `errno` of
`upload_service.upload_file` (an upload call that raises is indistinguishable
from a nonzero errno — both land in the same `except` block). -/
structure UploadAttemptEnv where
  fileExists : Bool
  uploadErrno : Int
deriving DecidableEq, Repr

/-- An upload attempt fails exactly when the artifact is missing or the
collaborator does not report `errno == 0`. -/
def UploadAttemptEnv.fails (e : UploadAttemptEnv) : Prop :=
  e.fileExists = false ∨ e.uploadErrno ≠ 0

instance (e : UploadAttemptEnv) : Decidable e.fails := by
  unfold UploadAttemptEnv.fails; infer_instance

/-- The externally visible effects of one `_execute_upload` call. -/
structure UploadOutcome where
  reEnqueuedToRetry : Bool
  onSuccessCalled : Bool
  onFailureCalled : Bool
  onRetryCalled : Bool
  dbSuccessUpdated : Bool
  dbFailureUpdated : Bool
deriving DecidableEq, Repr

/-- The `except Exception` block of `_execute_upload`: mark FAILED, then if
`can_retry()` increment the count and push to the retry queue (retry
callback), else fire the failure callback and the failure database update. -/
def executeUploadFailure (t : UploadTask) : UploadTask × UploadOutcome :=
  let t0 := { t with status := UploadStatus.failed }
  if t0.canRetry then
    (t0.incrementRetry,
     { reEnqueuedToRetry := true, onSuccessCalled := false
       onFailureCalled := false, onRetryCalled := true
       dbSuccessUpdated := false, dbFailureUpdated := false })
  else
    (t0,
     { reEnqueuedToRetry := false, onSuccessCalled := false
       onFailureCalled := true, onRetryCalled := false
       dbSuccessUpdated := false, dbFailureUpdated := true })

/-- `AsyncUploadService._execute_upload`: mark UPLOADING; a missing file
raises `FileNotFoundError` (handled by the same `except` block as any other
failure); `errno == 0` is success (success callback, success database
update); anything else raises into the failure branch. -/
def executeUpload (env : UploadAttemptEnv) (t : UploadTask) :
    UploadTask × UploadOutcome :=
  let t1 := { t with status := UploadStatus.uploading }
  if env.fileExists = false then
    executeUploadFailure t1
  else if env.uploadErrno = 0 then
    ({ t1 with status := UploadStatus.success },
     { reEnqueuedToRetry := false, onSuccessCalled := true
       onFailureCalled := false, onRetryCalled := false
       dbSuccessUpdated := true, dbFailureUpdated := false })
  else
    executeUploadFailure t1

/-- The task state after `k` worker attempts drawn from the attempt
environment sequence `env` (attempt `k` sees `env k`).  Workers re-execute a
task only while it keeps being re-enqueued; the trace below records what
each successive execution would do. -/
def attemptsState (env : Nat → UploadAttemptEnv) (t : UploadTask) :
    Nat → UploadTask
  | 0 => t
  | k + 1 => (executeUpload (env k) (attemptsState env t k)).fst

/-- The outcome of the `k`-th attempt (0-indexed). -/
def attemptOutcome (env : Nat → UploadAttemptEnv) (t : UploadTask)
    (k : Nat) : UploadOutcome :=
  (executeUpload (env k) (attemptsState env t k)).snd

/-- One entry of the primary `upload_queue`: `submit_upload` puts the tuple
`(priority, time.time(), task)`; the queue itself is FIFO. -/
structure QueueEntry where
  priority : Int
  submitTime : Int
  task : UploadTask
deriving DecidableEq, Repr

/-- `AsyncUploadService.get_pending_tasks`: drains the primary queue with
`get_nowait` until empty, collecting the tasks in dequeue (FIFO) order, and
returns them together with the drained queue. -/
def getPendingTasks : List QueueEntry → List UploadTask × List QueueEntry
  | [] => ([], [])
  | e :: rest =>
    let (ts, q) := getPendingTasks rest
    (e.task :: ts, q)

/-! ## Per-item pipeline (`control/single_file_processor.py`) and the
upload-success cleanup (`control/file_processor_coordinator.py`) -/

/-- `ProcessStage`. -/
inductive ProcessStage where
  | classify
  | hash
  | zip
  | zipHash
  | unzip
  | unzipHash
  | uploadQueue
  | uploaded
  | deleted
deriving DecidableEq, Repr

/-- The fields of the database record that `_create_context` copies into the
processing context. -/
structure ItemRecord where
  itemId : Nat
  sourcePath : String
  itemName : String
  itemSize : Nat
  classifyResult : String
deriving DecidableEq, Repr

/-- `ProcessingContext`.  Hash digests (the `md5` values the code compares)
are modelled as natural numbers. -/
structure ProcessingContext where
  sourcePath : String
  itemId : Nat
  itemName : String
  itemSize : Nat
  classifyResult : String
  zippedPath : Option String := none
  zipSize : Option Nat := none
  unzipPath : Option String := none
  unzipSize : Option Nat := none
  sourceHash : Option Nat := none
  zipHash : Option Nat := none
  unzipHash : Option Nat := none
  spaceReservation : Option SpaceReservation := none
  currentStage : ProcessStage := ProcessStage.classify
deriving DecidableEq, Repr

/-- `SingleFileProcessor._create_context`. -/
def createContext (rec : ItemRecord) : ProcessingContext :=
  { sourcePath := rec.sourcePath
    itemId := rec.itemId
    itemName := rec.itemName
    itemSize := rec.itemSize
    classifyResult := rec.classifyResult }

/-- `SingleFileProcessor._calculate_required_space`:
`int(source_size * 0.5)` is `source_size / 2` on naturals. -/
def calculateRequiredSpace (stage : ProcessStage)
    (ctx : ProcessingContext) : Nat :=
  let sourceSize := ctx.itemSize
  match stage with
  | ProcessStage.hash => sourceSize
  | ProcessStage.zip => sourceSize + sourceSize / 2
  | ProcessStage.zipHash => sourceSize + sourceSize / 2
  | ProcessStage.unzip => sourceSize + sourceSize / 2 + sourceSize
  | ProcessStage.unzipHash => sourceSize + sourceSize / 2 + sourceSize
  | _ => sourceSize

/-- The per-folder locations the processor reserves space on
(`PathConfig.zipped_folder` / `PathConfig.unzip_folder`). -/
structure PathCfg where
  zippedFolder : String := "zipped"
  unzipFolder : String := "unzip"
deriving DecidableEq, Repr

/-- The collaborator outcomes one `process_file` run observes.  Each stage's
local retry loop retries the same deterministic collaborator call, so one
boolean per stage captures whether the stage's operation (eventually)
succeeds or keeps failing until the local budget is exhausted.  Hash values
are the digests the collaborators would report.  `disk` is the OS disk
usage the space manager sees during the run. -/
structure PipelineEnv where
  disk : Option RawDiskUsage
  hashOk : Bool
  sourceHashVal : Nat
  zipOk : Bool
  zipSizeVal : Nat
  zipHashOk : Bool
  zipHashVal : Nat
  unzipOk : Bool
  unzipSizeVal : Nat
  unzipHashOk : Bool
  unzipHashVal : Nat
  artifactExistsAtUpload : Bool
  uploadErrno : Int
deriving DecidableEq, Repr

/-- The outcome `process_file` returns, plus the hash-mismatch warning the
UNZIP_HASH stage may log (the source only calls `logger.warning`; recording
the flag lets theorems talk about it). -/
structure PipelineResult where
  success : Bool
  stage : ProcessStage
  zippedPathData : Option String
  zipSizeData : Option Nat
  hashMismatchWarned : Bool
deriving DecidableEq, Repr

/-- `SingleFileProcessor._process_hash_stage`: compute the source hash (or
exhaust the local retries). -/
def processHashStage (env : PipelineEnv) (ctx : ProcessingContext) :
    Bool × ProcessingContext :=
  let ctx := { ctx with currentStage := ProcessStage.hash }
  if env.hashOk then
    (true, { ctx with sourceHash := some env.sourceHashVal })
  else
    (false, ctx)

/-- `SingleFileProcessor._process_zip_stage`: reserve
`source + int(source*0.5)` bytes on the zipped folder — the result,
`Some` or `None`, is assigned to `context.space_reservation` — then run the
zip collaborator and record the artifact path and size. -/
def processZipStage (cfg : DiskSpaceConfig) (pc : PathCfg)
    (env : PipelineEnv) (ctx : ProcessingContext) (ledger : Ledger) :
    Bool × ProcessingContext × Ledger :=
  let ctx := { ctx with currentStage := ProcessStage.zip }
  let required := calculateRequiredSpace ProcessStage.zip ctx
  let (rOpt, ledger) := reserveSpace cfg ledger env.disk pc.zippedFolder required
  let ctx := { ctx with spaceReservation := rOpt }
  match rOpt with
  | none => (false, ctx, ledger)
  | some _ =>
    if env.zipOk then
      (true,
       { ctx with
         zippedPath := some (pc.zippedFolder ++ "/" ++ ctx.itemName ++ ".zip")
         zipSize := some env.zipSizeVal },
       ledger)
    else
      (false, ctx, ledger)

/-- `SingleFileProcessor._process_zip_hash_stage`. -/
def processZipHashStage (env : PipelineEnv) (ctx : ProcessingContext) :
    Bool × ProcessingContext :=
  let ctx := { ctx with currentStage := ProcessStage.zipHash }
  if env.zipHashOk then
    (true, { ctx with zipHash := some env.zipHashVal })
  else
    (false, ctx)

/-- `SingleFileProcessor._process_unzip_stage`: reserve
`source + int(source*0.5) + source` bytes on the unzip folder, assigning the
result to `context.space_reservation` (overwriting whatever reservation the
context already held); decompress; fail hard when the decompressed size
differs from the recorded source size; on success release `item_size` bytes
of the unzip-folder reservation, keeping the archive's share reserved. -/
def processUnzipStage (cfg : DiskSpaceConfig) (pc : PathCfg)
    (env : PipelineEnv) (ctx : ProcessingContext) (ledger : Ledger) :
    Bool × ProcessingContext × Ledger :=
  let ctx := { ctx with currentStage := ProcessStage.unzip }
  let required := calculateRequiredSpace ProcessStage.unzip ctx
  let (rOpt, ledger) := reserveSpace cfg ledger env.disk pc.unzipFolder required
  let ctx := { ctx with spaceReservation := rOpt }
  match rOpt with
  | none => (false, ctx, ledger)
  | some _ =>
    if env.unzipOk then
      let ctx := { ctx with
        unzipPath := some (pc.unzipFolder ++ "/" ++ ctx.itemName)
        unzipSize := some env.unzipSizeVal }
      if env.unzipSizeVal ≠ ctx.itemSize then
        (false, ctx, ledger)
      else
        (true, ctx, releaseSpace ledger pc.unzipFolder ctx.itemSize)
    else
      (false, ctx, ledger)

/-- `SingleFileProcessor._process_unzip_hash_stage`: hash the decompressed
content; when a source hash is recorded and the `md5` digests differ, the
source only logs a warning — the stage still returns success. -/
def processUnzipHashStage (env : PipelineEnv) (ctx : ProcessingContext) :
    Bool × ProcessingContext × Bool :=
  let ctx := { ctx with currentStage := ProcessStage.unzipHash }
  if env.unzipHashOk then
    let ctx := { ctx with unzipHash := some env.unzipHashVal }
    let warned :=
      match ctx.sourceHash with
      | some h => decide (h ≠ env.unzipHashVal)
      | none => false
    (true, ctx, warned)
  else
    (false, ctx, false)

/-- The `try` body of `SingleFileProcessor.process_file`: the stage sequence
for `normal_file`/`normal_folder`, the shortcut for `zip_file`, then
`_mark_for_upload`. -/
def processFileBody (cfg : DiskSpaceConfig) (pc : PathCfg)
    (env : PipelineEnv) (ctx : ProcessingContext) (ledger : Ledger) :
    PipelineResult × ProcessingContext × Ledger :=
  let isCompressible :=
    ctx.classifyResult == "normal_file" || ctx.classifyResult == "normal_folder"
  if isCompressible then
    let (ok, ctx) := processHashStage env ctx
    if ok = false then
      (⟨false, ProcessStage.hash, none, none, false⟩, ctx, ledger)
    else
      let (ok, ctx, ledger) := processZipStage cfg pc env ctx ledger
      if ok = false then
        (⟨false, ProcessStage.zip, none, none, false⟩, ctx, ledger)
      else
        let (ok, ctx) := processZipHashStage env ctx
        if ok = false then
          (⟨false, ProcessStage.zipHash, none, none, false⟩, ctx, ledger)
        else
          let (ok, ctx, ledger) := processUnzipStage cfg pc env ctx ledger
          if ok = false then
            (⟨false, ProcessStage.unzip, none, none, false⟩, ctx, ledger)
          else
            let (ok, ctx, warned) := processUnzipHashStage env ctx
            if ok = false then
              (⟨false, ProcessStage.unzipHash, none, none, false⟩, ctx, ledger)
            else
              let ctx := { ctx with currentStage := ProcessStage.uploadQueue }
              (⟨true, ProcessStage.uploadQueue, ctx.zippedPath, ctx.zipSize,
                warned⟩, ctx, ledger)
  else if ctx.classifyResult == "zip_file" then
    let ctx := { ctx with currentStage := ProcessStage.zipHash }
    let ctx := { ctx with currentStage := ProcessStage.uploadQueue }
    (⟨true, ProcessStage.uploadQueue, ctx.zippedPath, ctx.zipSize, false⟩,
     ctx, ledger)
  else
    let ctx := { ctx with currentStage := ProcessStage.uploadQueue }
    (⟨true, ProcessStage.uploadQueue, ctx.zippedPath, ctx.zipSize, false⟩,
     ctx, ledger)

/-- `SingleFileProcessor.process_file`: run the body, then the `finally`
block releases `context.space_reservation` — the reservation currently held
by the context — if there is one. -/
def processFile (cfg : DiskSpaceConfig) (pc : PathCfg) (env : PipelineEnv)
    (rec : ItemRecord) (ledger : Ledger) :
    PipelineResult × ProcessingContext × Ledger :=
  let ctx := createContext rec
  let (result, ctx, ledger) := processFileBody cfg pc env ctx ledger
  match ctx.spaceReservation with
  | some r =>
    let (ledger, r) := releaseReservation ledger r
    (result, { ctx with spaceReservation := some r }, ledger)
  | none => (result, ctx, ledger)

/-- The coordinator's path from a processed item to source deletion:
`_process_single_file` submits an upload task only when the result is a
success carrying a `zipped_path`; the upload worker executes it; on the
success callback `_on_upload_success` runs `_cleanup_files`, which deletes
the record's source path.  Returns `true` exactly when the item's source
data is deleted in this run. -/
def sourceDeletedInRun (cfg : DiskSpaceConfig) (pc : PathCfg)
    (env : PipelineEnv) (rec : ItemRecord) (ledger : Ledger) : Bool :=
  let (result, _, _) := processFile cfg pc env rec ledger
  if result.success && result.zippedPathData.isSome then
    let task : UploadTask :=
      { itemId := rec.itemId
        filePath := result.zippedPathData.getD ""
        fileSize := result.zipSizeData.getD 0 }
    let (_, outcome) :=
      executeUpload
        { fileExists := env.artifactExistsAtUpload
          uploadErrno := env.uploadErrno } task
    outcome.onSuccessCalled
  else
    false

/-! ## ASCII lowercasing and lexicographic string order

Python's `str.lower()` and string comparison are used by the error
classifier and by the zip entry sort.  The embedding works on the
character lists underlying Lean strings (the sources only feed ASCII
keywords and file paths through these operations). -/

/-- `str.lower()` on one character (ASCII range, as the sources use it). -/
def pyLowerChar (c : Char) : Char :=
  if 65 ≤ c.toNat ∧ c.toNat ≤ 90 then Char.ofNat (c.toNat + 32) else c

/-- `str.lower()`. -/
def pyLower (s : String) : String :=
  String.mk (s.data.map pyLowerChar)

/-- Python's lexicographic string comparison `<=`, on character lists. -/
def charListLe : List Char → List Char → Bool
  | [], _ => true
  | _ :: _, [] => false
  | x :: xs, y :: ys => x < y || (x == y && charListLe xs ys)

/-! ## Error recovery (`utils/error_recovery.py`) -/

/-- `ErrorType`. -/
inductive ErrorType where
  | compressionFailed
  | verificationFailed
  | uploadFailed
  | spaceInsufficient
  | databaseError
  | fileNotFound
  | permissionDenied
  | networkError
  | unknownError
deriving DecidableEq, Repr

/-- `RecoveryAction`. -/
inductive RecoveryAction where
  | retry
  | skip
  | manualIntervention
  | cleanupAndRetry
  | waitAndRetry
deriving DecidableEq, Repr

/-- One value of the `retry_strategies` dict. -/
structure RetryStrategy where
  maxRetries : Nat
  retryDelay : Nat
  recoveryAction : RecoveryAction
deriving DecidableEq, Repr

/-- `ErrorRecoveryManager.retry_strategies`: the dict literal holds entries
for eight error types and none for `UNKNOWN_ERROR`, which we model as the
`none` branch. -/
def retryStrategies : ErrorType → Option RetryStrategy
  | ErrorType.compressionFailed =>
    some ⟨3, 60, RecoveryAction.cleanupAndRetry⟩
  | ErrorType.verificationFailed => some ⟨2, 120, RecoveryAction.retry⟩
  | ErrorType.uploadFailed => some ⟨5, 300, RecoveryAction.retry⟩
  | ErrorType.spaceInsufficient => some ⟨10, 600, RecoveryAction.waitAndRetry⟩
  | ErrorType.databaseError => some ⟨3, 30, RecoveryAction.retry⟩
  | ErrorType.fileNotFound => some ⟨1, 0, RecoveryAction.skip⟩
  | ErrorType.permissionDenied =>
    some ⟨1, 0, RecoveryAction.manualIntervention⟩
  | ErrorType.networkError => some ⟨5, 180, RecoveryAction.retry⟩
  | ErrorType.unknownError => none

/-- Does the character list start with the given pattern? -/
def startsWithChars : List Char → List Char → Bool
  | [], _ => true
  | _ :: _, [] => false
  | a :: pa, b :: sb => a == b && startsWithChars pa sb

/-- Does the pattern occur as a contiguous run of the character list? -/
def hasSubChain (pat : List Char) : List Char → Bool
  | [] => startsWithChars pat []
  | c :: rest => startsWithChars pat (c :: rest) || hasSubChain pat rest

/-- `keyword in error_message_lower` (Python substring containment). -/
def containsSub (s pat : String) : Bool :=
  hasSubChain pat.toList s.toList

/-- `ErrorRecoveryManager._classify_error`: best-effort keyword match on the
lowercased message, with the exact branch ordering of the source. -/
def classifyError (errorMessage : String) : ErrorType :=
  let m := pyLower errorMessage
  if containsSub m "compress" || containsSub m "zip" then
    ErrorType.compressionFailed
  else if containsSub m "verif" || containsSub m "hash" then
    ErrorType.verificationFailed
  else if containsSub m "upload" || containsSub m "network" then
    (if containsSub m "upload" then ErrorType.uploadFailed
     else ErrorType.networkError)
  else if containsSub m "space" || containsSub m "disk" then
    ErrorType.spaceInsufficient
  else if containsSub m "database" || containsSub m "mysql" then
    ErrorType.databaseError
  else if containsSub m "not found" || containsSub m "no such file" then
    ErrorType.fileNotFound
  else if containsSub m "permission" || containsSub m "access denied" then
    ErrorType.permissionDenied
  else
    ErrorType.unknownError

/-- `ErrorRecord`, with `next_retry_time = now + retry_delay` carried as the
delay. -/
structure ErrRecord where
  fileId : Nat
  errorType : ErrorType
  errorMessage : String
  stage : String
  retryCount : Nat := 0
  maxRetries : Nat
  retryDelay : Nat
  recoveryAction : RecoveryAction
deriving DecidableEq, Repr

/-- `ErrorRecoveryManager.record_error`.  The source computes the strategy
as `retry_strategies.get(error_type, retry_strategies[ErrorType.UNKNOWN_ERROR])`;
Python evaluates the default argument eagerly, so the subscript
`retry_strategies[ErrorType.UNKNOWN_ERROR]` runs on every call — and raises
`KeyError`, because the dict has no `UNKNOWN_ERROR` entry.  The exceptional
outcome is the `Except.error` branch. -/
def recordError (fileId : Nat) (errorMessage : String) (stage : String) :
    Except String ErrRecord :=
  let errorType := classifyError errorMessage
  match retryStrategies ErrorType.unknownError with
  | none => Except.error "KeyError: ErrorType.UNKNOWN_ERROR"
  | some dflt =>
    let strategy := (retryStrategies errorType).getD dflt
    Except.ok
      { fileId := fileId
        errorType := errorType
        errorMessage := errorMessage
        stage := stage
        maxRetries := strategy.maxRetries
        retryDelay := strategy.retryDelay
        recoveryAction := strategy.recoveryAction }

/-! ## Zip service (`service/zip_service.py`, `config/zip_config.py`) -/

/-- `ZipConfig.salt`: the fixed per-key-length salt table (bytes written out
numerically). -/
def zipConfigSalt : Nat → Option (List Nat)
  | 8 => some [0xaa, 0x25, 0xec, 0xec, 0x5b, 0x94, 0xbe, 0x78]
  | 12 => some [0x7d, 0x79, 0xd5, 0x19, 0x41, 0xa2, 0xf6, 0x1b,
                0xce, 0x86, 0x7f, 0x85]
  | 16 => some [0xd1, 0x12, 0x5f, 0xd7, 0xd7, 0x0a, 0x92, 0xfd,
                0x43, 0x84, 0x0d, 0x65, 0xcd, 0x78, 0x44, 0x0b]
  | _ => none

/-- `add_self_salt`: the hook installed around the AES encrypter sets
`self.salt = ZipConfig.salt[self.salt_length]` — a pure table lookup on the
key length, never a random draw. -/
def addSelfSalt (saltLength : Nat) : Option (List Nat) :=
  zipConfigSalt saltLength

/-- One file destined for the archive: its arcname (the relative path
computed by `_add_directory_to_zip`) and its content bytes. -/
structure ZipEntry where
  arcname : String
  content : List Nat
deriving DecidableEq, Repr

/-- The sort key of `all_files.sort(key=lambda x: x[1].lower())`: the
lowercased arcname, as its character list. -/
def zipSortKey (e : ZipEntry) : List Char :=
  e.arcname.data.map pyLowerChar

/-- `_add_directory_to_zip`: the collected files are sorted by lowercased
arcname and written in that order.  Python's `list.sort` is a stable
comparison sort; we model it with `List.insertionSort` on the same key
(for lists whose keys are pairwise distinct every stable sort agrees). -/
def addDirectoryToZip (files : List ZipEntry) : List ZipEntry :=
  List.insertionSort
    (fun a b => charListLe (zipSortKey a) (zipSortKey b) = true) files

/-- The archive value `zip_item` determines before handing it to the
(deterministic, per spec §6) encode primitive: the ordered entry list, the
password, the salt the hook injects (only an encrypted archive consumes a
salt), and the clamped compression level
`max(0, min(9, compress_level))`. -/
structure ZipArchive where
  entries : List ZipEntry
  password : Option String
  salt : Option (List Nat)
  compressLevel : Nat
deriving DecidableEq, Repr

/-- `ZipService.zip_item` on a directory source: every input that decides
the archive bytes.  `saltLength` is the AES key-length-determined
`salt_length` of the encrypter the hook patches. -/
def zipItem (files : List ZipEntry) (password : Option String)
    (compressLevel : Nat) (saltLength : Nat) : ZipArchive :=
  { entries := addDirectoryToZip files
    password := password
    salt := match password with
            | some _ => addSelfSalt saltLength
            | none => none
    compressLevel := max 0 (min 9 compressLevel) }

/-! ## Ledger helper lemmas -/

theorem resGet_mapReplace (l : Ledger) (p : String) (v : Nat)
    (h : l.any (fun kv => kv.fst == p) = true) :
    resGet (l.map (fun kv => if kv.fst == p then (p, v) else kv)) p = v := by
  induction l with
  | nil => simp at h
  | cons kv t ih =>
    by_cases hk : kv.fst = p
    · simp [resGet, List.find?, hk]
    · have hk' : (kv.fst == p) = false := beq_eq_false_iff_ne.mpr hk
      have ht : t.any (fun kv => kv.fst == p) = true := by
        simpa [List.any_cons, hk'] using h
      simpa [resGet, List.find?, hk'] using ih ht

theorem resGet_appendNew (l : Ledger) (p : String) (v : Nat)
    (h : l.any (fun kv => kv.fst == p) = false) :
    resGet (l ++ [(p, v)]) p = v := by
  induction l with
  | nil => simp [resGet, List.find?]
  | cons kv t ih =>
    have hk : (kv.fst == p) = false := by
      by_contra hc
      simp only [Bool.not_eq_false] at hc
      simp [List.any_cons, hc] at h
    have ht : t.any (fun kv => kv.fst == p) = false := by
      simpa [List.any_cons, hk] using h
    simpa [resGet, List.find?, hk] using ih ht

theorem resGet_resSet (l : Ledger) (p : String) (v : Nat) :
    resGet (resSet l p v) p = v := by
  unfold resSet
  cases hany : l.any (fun kv => kv.fst == p) with
  | true => simpa [hany] using resGet_mapReplace l p v hany
  | false => simpa [hany] using resGet_appendNew l p v hany

theorem resFind_resErase (l : Ledger) (p : String) :
    (resErase l p).find? (fun kv => kv.fst == p) = none := by
  induction l with
  | nil => rfl
  | cons kv t ih =>
    by_cases hk : kv.fst = p
    · simp [resErase, List.filter, hk]
    · have hk' : (kv.fst == p) = false := beq_eq_false_iff_ne.mpr hk
      simp [resErase, List.filter, List.find?, hk', bne]

theorem resContains_resErase (l : Ledger) (p : String) :
    resContains (resErase l p) p = false := by
  induction l with
  | nil => rfl
  | cons kv t ih =>
    by_cases hk : kv.fst = p
    · simp [resErase, resContains, List.filter, hk]
    · have hk' : (kv.fst == p) = false := beq_eq_false_iff_ne.mpr hk
      simp [resErase, resContains, List.filter, List.any_cons, hk', bne]

theorem resGet_releaseSpace (l : Ledger) (p : String) (b : Nat) :
    resGet (releaseSpace l p b) p = resGet l p - b := by
  unfold releaseSpace
  by_cases h : resGet l p - b = 0
  · rw [h]
    simp only [h, if_true]
    simp [resGet, resFind_resErase]
  · simp only [h, if_false]
    exact resGet_resSet l p (resGet l p - b)

/-! ## Claim theorems: space ledger -/

/-- C3 (counterexample).  The claim demands that admission fail at the
exact boundary, where `actual_used + reservations + required*(1+margin)`
equals the threshold.  With total capacity 110, zero usage, no reservations
and `required = 100` (margin 10% gives exactly 110), the sum equals the
threshold exactly, yet `can_process_file` returns `True`: the source
compares with `free_bytes >= required_with_margin`, which admits the
boundary point. -/
theorem can_process_file_boundary_counterexample :
    ((0 : Int) + (resGet [] "d" : Int)
        + (DiskSpaceConfig.getRequiredSpaceWithMargin
            { safetyMarginPercent := 10, enabled := true } 100 : Int)
      = (110 : Int))
    ∧ (canProcessFile { safetyMarginPercent := 10, enabled := true } []
        (some { totalBytes := 110, usedBytes := 0 }) 100 "d").fst = true := by
  constructor
  · decide
  · rfl

/-- C3 (amended).  `can_process_file` returns `True` iff
`actual_used + reservations + required_with_margin <= total capacity`,
where `required_with_margin = required + int(required * margin/100)`; the
comparison is non-strict, so the exact boundary is admitted and one byte
over is denied; an unavailable disk query denies admission. -/
theorem can_process_file_admission_iff (cfg : DiskSpaceConfig)
    (res : Ledger) (d : RawDiskUsage) (req : Nat) (path : String) :
    ((canProcessFile cfg res (some d) req path).fst = true ↔
      (d.usedBytes : Int) + (resGet res path : Int)
          + (cfg.getRequiredSpaceWithMargin req : Int) ≤ (d.totalBytes : Int))
    ∧ (canProcessFile cfg res none req path).fst = false := by
  constructor
  · simp only [canProcessFile, checkSpaceStatus, ge_iff_le, decide_eq_true_eq]
    omega
  · rfl

/-- C7.  Releasing a `SpaceReservation` a second time is a no-op (the
`released` flag short-circuits `release_reservation`); the first release
decrements the per-path ledger total by exactly the reservation's bytes,
flooring at zero (`Nat` truncated subtraction is the `max(0, ...)`); and
when the tracked total reaches zero the path is dropped from the
reservation map. -/
theorem release_reservation_exactly_once (res : Ledger)
    (r : SpaceReservation) (h : r.released = false) :
    (releaseReservation (releaseReservation res r).fst
        (releaseReservation res r).snd = releaseReservation res r)
    ∧ resGet (releaseReservation res r).fst r.path
        = resGet res r.path - r.reservedBytes
    ∧ (resGet res r.path ≤ r.reservedBytes →
        resContains (releaseReservation res r).fst r.path = false) := by
  refine ⟨?_, ?_, ?_⟩
  · simp [releaseReservation, h]
  · simp only [releaseReservation, h, Bool.false_eq_true, if_false]
    exact resGet_releaseSpace res r.path r.reservedBytes
  · intro hle
    have hz : resGet res r.path - r.reservedBytes = 0 := by omega
    simp only [releaseReservation, h, Bool.false_eq_true, if_false,
      releaseSpace, hz, if_true]
    exact resContains_resErase res r.path

/-- C7 (witness): a reservation of 60 bytes against a ledger holding 50 on
the same path — the release floors at zero and drops the path. -/
theorem release_reservation_exactly_once_witness :
    (releaseReservation
        (releaseReservation [("p", 50)] ⟨60, "p", false⟩).fst
        (releaseReservation [("p", 50)] ⟨60, "p", false⟩).snd
      = releaseReservation [("p", 50)] ⟨60, "p", false⟩)
    ∧ resGet (releaseReservation [("p", 50)] ⟨60, "p", false⟩).fst "p"
        = resGet [("p", 50)] "p" - 60
    ∧ (resGet [("p", 50)] "p" ≤ 60 →
        resContains (releaseReservation [("p", 50)] ⟨60, "p", false⟩).fst "p"
          = false) :=
  release_reservation_exactly_once [("p", 50)] ⟨60, "p", false⟩ rfl

/-- C9.  With the space manager disabled, `reserve_space` returns a fresh
reservation for any path and byte count and leaves the reservation ledger
untouched — no admission check runs and the reserved bytes are never
counted against effective usage. -/
theorem reserve_space_disabled_unconditional (cfg : DiskSpaceConfig)
    (res : Ledger) (disk : Option RawDiskUsage) (path : String)
    (bytes : Nat) (h : cfg.enabled = false) :
    reserveSpace cfg res disk path bytes
      = (some { reservedBytes := bytes, path := path, released := false },
         res) := by
  simp [reserveSpace, h]

/-- C9 (witness): a disabled manager grants 77 bytes on an unavailable disk
without touching a ledger that holds other reservations. -/
theorem reserve_space_disabled_unconditional_witness :
    reserveSpace { safetyMarginPercent := 10, enabled := false }
        [("q", 5)] none "p" 77
      = (some { reservedBytes := 77, path := "p", released := false },
         [("q", 5)]) :=
  reserve_space_disabled_unconditional
    { safetyMarginPercent := 10, enabled := false } [("q", 5)] none "p" 77 rfl

/-! ## Claim theorems: upload queue -/

/-- C10.  `get_pending_tasks` drains the primary queue completely (it is
empty afterwards, so the returned tasks are no longer scheduled) and
returns the tasks in FIFO dequeue order. -/
theorem get_pending_tasks_drains_fifo (q : List QueueEntry) :
    (getPendingTasks q).fst = q.map (fun e => e.task)
    ∧ (getPendingTasks q).snd = [] := by
  induction q with
  | nil => exact ⟨rfl, rfl⟩
  | cons e rest ih =>
    refine ⟨?_, ?_⟩
    · simp [getPendingTasks, ih.1]
    · simp [getPendingTasks, ih.2]

/-- Helper: on any failing attempt, `_execute_upload` runs the shared
`except` block. -/
theorem executeUpload_of_fails (e : UploadAttemptEnv) (t : UploadTask)
    (h : e.fails) :
    executeUpload e t
      = executeUploadFailure { t with status := UploadStatus.uploading } := by
  rcases h with h | h
  · simp [executeUpload, h]
  · cases hf : e.fileExists with
    | false => simp [executeUpload, hf]
    | true => simp [executeUpload, hf, h]

/-- Helper: how the failure branch transforms the retry counter and the
bound. -/
theorem executeUploadFailure_state (t : UploadTask) :
    (executeUploadFailure t).fst.retryCount
        = (if t.retryCount < t.maxRetries then t.retryCount + 1
           else t.retryCount)
    ∧ (executeUploadFailure t).fst.maxRetries = t.maxRetries := by
  by_cases h : t.retryCount < t.maxRetries
  · simp [executeUploadFailure, UploadTask.canRetry, UploadTask.incrementRetry, h]
  · simp [executeUploadFailure, UploadTask.canRetry, h]

/-- Helper: under an always-failing environment, the task state after `k`
attempts has `retry_count = min k max_retries` and an unchanged
`max_retries`. -/
theorem attemptsState_of_fails (env : Nat → UploadAttemptEnv)
    (t : UploadTask) (hf : ∀ k, (env k).fails) (h0 : t.retryCount = 0) :
    ∀ k, (attemptsState env t k).retryCount = min k t.maxRetries
      ∧ (attemptsState env t k).maxRetries = t.maxRetries := by
  intro k
  induction k with
  | zero => simp [attemptsState, h0]
  | succ k ih =>
    have hstep := executeUpload_of_fails (env k) (attemptsState env t k) (hf k)
    have hfb := executeUploadFailure_state
      { attemptsState env t k with status := UploadStatus.uploading }
    simp only [attemptsState, hstep]
    refine ⟨?_, ?_⟩
    · rw [hfb.1]
      simp only [ih.1, ih.2]
      by_cases hlt : min k t.maxRetries < t.maxRetries
      · simp only [hlt, if_true]; omega
      · simp only [hlt, if_false]; omega
    · rw [hfb.2]; exact ih.2

/-- C2.  For a fresh task (`retry_count = 0`) whose upload attempts all
fail: the retry counter never exceeds `max_retries`; the `k`-th execution
re-enqueues the task to the retry queue exactly when `k < max_retries` (so
the task is re-enqueued exactly `max_retries` times and, once the budget is
exhausted, never again); and the final execution fires the failure callback
and the failure database update and leaves the task FAILED. -/
theorem upload_retry_bound (env : Nat → UploadAttemptEnv) (t : UploadTask)
    (hf : ∀ k, (env k).fails) (h0 : t.retryCount = 0) :
    (∀ k, (attemptsState env t k).retryCount ≤ t.maxRetries)
    ∧ (∀ k, (attemptOutcome env t k).reEnqueuedToRetry = true ↔
        k < t.maxRetries)
    ∧ (attemptOutcome env t t.maxRetries).onFailureCalled = true
    ∧ (attemptOutcome env t t.maxRetries).dbFailureUpdated = true
    ∧ (attemptsState env t (t.maxRetries + 1)).status
        = UploadStatus.failed := by
  have hstate := attemptsState_of_fails env t hf h0
  have houtcome : ∀ k, (attemptOutcome env t k).reEnqueuedToRetry
        = decide (k < t.maxRetries)
      ∧ (attemptOutcome env t k).onFailureCalled = decide (t.maxRetries ≤ k)
      ∧ (attemptOutcome env t k).dbFailureUpdated = decide (t.maxRetries ≤ k) := by
    intro k
    unfold attemptOutcome
    rw [executeUpload_of_fails (env k) (attemptsState env t k) (hf k)]
    by_cases hlt : k < t.maxRetries
    · have hc : min k t.maxRetries < t.maxRetries := by omega
      have hle : ¬ t.maxRetries ≤ k := by omega
      simp [executeUploadFailure, UploadTask.canRetry, (hstate k).1,
        (hstate k).2, hc, hlt, hle]
    · have hc : ¬ min k t.maxRetries < t.maxRetries := by omega
      have hle : t.maxRetries ≤ k := by omega
      simp [executeUploadFailure, UploadTask.canRetry, (hstate k).1,
        (hstate k).2, hc, hlt, hle]
  refine ⟨?_, ?_, ?_, ?_, ?_⟩
  · intro k; exact le_of_eq_of_le (hstate k).1 (by omega)
  · intro k
    rw [(houtcome k).1]
    simp
  · rw [(houtcome t.maxRetries).2.1]; simp
  · rw [(houtcome t.maxRetries).2.2]; simp
  · show (executeUpload (env t.maxRetries)
        (attemptsState env t t.maxRetries)).fst.status = UploadStatus.failed
    rw [executeUpload_of_fails (env t.maxRetries)
      (attemptsState env t t.maxRetries) (hf t.maxRetries)]
    have hc : ¬ min t.maxRetries t.maxRetries < t.maxRetries := by omega
    simp [executeUploadFailure, UploadTask.canRetry,
      (hstate t.maxRetries).1, (hstate t.maxRetries).2, hc]

/-- The environment in which every upload attempt reports a nonzero errno. -/
def alwaysFailEnv : Nat → UploadAttemptEnv :=
  fun _ => { fileExists := true, uploadErrno := 1 }

/-- A fresh task with a retry budget of 2. -/
def freshTwoRetryTask : UploadTask :=
  { itemId := 1, filePath := "a", fileSize := 0, maxRetries := 2 }

/-- C2 (witness): with `max_retries = 2` and every attempt failing, the
third execution fires the failure callback and database update and leaves
the task FAILED. -/
theorem upload_retry_bound_witness :
    (attemptOutcome alwaysFailEnv freshTwoRetryTask
        freshTwoRetryTask.maxRetries).onFailureCalled = true
    ∧ (attemptOutcome alwaysFailEnv freshTwoRetryTask
        freshTwoRetryTask.maxRetries).dbFailureUpdated = true
    ∧ (attemptsState alwaysFailEnv freshTwoRetryTask
        (freshTwoRetryTask.maxRetries + 1)).status = UploadStatus.failed := by
  have hf : ∀ k, (alwaysFailEnv k).fails := by
    intro k
    exact Or.inr (by simp [alwaysFailEnv])
  have h := upload_retry_bound alwaysFailEnv freshTwoRetryTask hf rfl
  exact ⟨h.2.2.1, h.2.2.2.1, h.2.2.2.2⟩

/-- C5 (counterexample).  A fresh task (retry budget 5) whose artifact file
is missing when the worker dequeues it is NOT failed terminally: the
`FileNotFoundError` lands in the generic `except` block, so the task is
re-enqueued to the retry queue in RETRYING status and the failure callback
does not fire — contradicting the claim that absence of the artifact is an
immediate, non-retryable failure. -/
theorem missing_artifact_counterexample :
    (executeUpload { fileExists := false, uploadErrno := 0 }
        { itemId := 1, filePath := "a", fileSize := 0 }).snd.reEnqueuedToRetry
      = true
    ∧ (executeUpload { fileExists := false, uploadErrno := 0 }
        { itemId := 1, filePath := "a", fileSize := 0 }).fst.status
      = UploadStatus.retrying
    ∧ (executeUpload { fileExists := false, uploadErrno := 0 }
        { itemId := 1, filePath := "a", fileSize := 0 }).snd.onFailureCalled
      = false := by
  refine ⟨rfl, rfl, rfl⟩

/-- C5 (amended).  A missing artifact makes the attempt fail, but it is
handled exactly like any other failure: while `retry_count < max_retries`
the task is re-enqueued (RETRYING) with no failure callback, and only once
the budget is exhausted does it transition to FAILED with the failure
callback and the failure database update. -/
theorem missing_artifact_retried_like_any_failure (t : UploadTask)
    (errno : Int) :
    (t.retryCount < t.maxRetries →
      (executeUpload { fileExists := false, uploadErrno := errno }
          t).snd.reEnqueuedToRetry = true
      ∧ (executeUpload { fileExists := false, uploadErrno := errno }
          t).fst.status = UploadStatus.retrying
      ∧ (executeUpload { fileExists := false, uploadErrno := errno }
          t).snd.onFailureCalled = false)
    ∧ (t.maxRetries ≤ t.retryCount →
      (executeUpload { fileExists := false, uploadErrno := errno }
          t).snd.reEnqueuedToRetry = false
      ∧ (executeUpload { fileExists := false, uploadErrno := errno }
          t).fst.status = UploadStatus.failed
      ∧ (executeUpload { fileExists := false, uploadErrno := errno }
          t).snd.onFailureCalled = true
      ∧ (executeUpload { fileExists := false, uploadErrno := errno }
          t).snd.dbFailureUpdated = true) := by
  constructor
  · intro h
    simp [executeUpload, executeUploadFailure, UploadTask.canRetry,
      UploadTask.incrementRetry, h]
  · intro h
    have h' : ¬ t.retryCount < t.maxRetries := by omega
    simp [executeUpload, executeUploadFailure, UploadTask.canRetry, h']

/-- C5 (amended, witness): a fresh task (budget 5) with a missing artifact
is re-enqueued in RETRYING status without the failure callback. -/
theorem missing_artifact_retried_like_any_failure_witness :
    (executeUpload { fileExists := false, uploadErrno := 0 }
        { itemId := 1, filePath := "a", fileSize := 0 }).snd.reEnqueuedToRetry
      = true
    ∧ (executeUpload { fileExists := false, uploadErrno := 0 }
        { itemId := 1, filePath := "a", fileSize := 0 }).fst.status
      = UploadStatus.retrying
    ∧ (executeUpload { fileExists := false, uploadErrno := 0 }
        { itemId := 1, filePath := "a", fileSize := 0 }).snd.onFailureCalled
      = false :=
  (missing_artifact_retried_like_any_failure
    { itemId := 1, filePath := "a", fileSize := 0 } 0).1 (by decide)

/-! ## Claim theorems: error recovery -/

/-- C6 (code bug).  `_classify_error` does degrade an unmatched message to
`UNKNOWN_ERROR`, but `record_error` never produces an `ErrorRecord` for any
message: the strategy lookup
`retry_strategies.get(error_type, retry_strategies[ErrorType.UNKNOWN_ERROR])`
evaluates its default argument eagerly, and the strategies dict has no
`UNKNOWN_ERROR` key, so every call raises `KeyError` — an unhandled
exception instead of a recorded error with a strategy. -/
theorem record_error_always_key_error :
    classifyError "bad weather" = ErrorType.unknownError
    ∧ recordError 7 "bad weather" "zip"
        = Except.error "KeyError: ErrorType.UNKNOWN_ERROR"
    ∧ ∀ (fileId : Nat) (msg stage : String),
        recordError fileId msg stage
          = Except.error "KeyError: ErrorType.UNKNOWN_ERROR" := by
  exact ⟨by decide, rfl, fun _ _ _ => rfl⟩

/-! ## Claim theorems: pipeline and cleanup -/

/-- The repository's live disk-space settings: 10% safety margin, manager
enabled. -/
def stdCfg : DiskSpaceConfig := { safetyMarginPercent := 10, enabled := true }

/-- The same settings with the manager disabled. -/
def disabledCfg : DiskSpaceConfig :=
  { safetyMarginPercent := 10, enabled := false }

/-- The zipped/unzip folders the processor reserves against. -/
def stdPaths : PathCfg := { zippedFolder := "zipped", unzipFolder := "unzip" }

/-- A 100-byte normal-file item. -/
def sampleItem : ItemRecord :=
  { itemId := 1, sourcePath := "src/item", itemName := "item"
    itemSize := 100, classifyResult := "normal_file" }

/-- Collaborator outcomes in which every operation succeeds, the
decompressed size matches the source size, the upload succeeds, and the
decompressed hash equals the source hash. -/
def okEnv : PipelineEnv :=
  { disk := some { totalBytes := 10000, usedBytes := 0 }
    hashOk := true, sourceHashVal := 1
    zipOk := true, zipSizeVal := 40
    zipHashOk := true, zipHashVal := 7
    unzipOk := true, unzipSizeVal := 100
    unzipHashOk := true, unzipHashVal := 1
    artifactExistsAtUpload := true, uploadErrno := 0 }

/-- The same run, except the decompressed content hashes differently from
the source content. -/
def mismatchEnv : PipelineEnv := { okEnv with unzipHashVal := 2 }

/-- C4 (code bug).  A fully successful `process_file` run on a 100-byte
item (ample disk, empty ledger) terminates with 150 bytes still recorded
against the zipped folder: `_process_unzip_stage` overwrites
`context.space_reservation` with the UNZIP reservation without releasing
the ZIP-stage reservation, so the `finally` block releases only the UNZIP
one and the ZIP reservation's bytes stay in the ledger forever. -/
theorem zip_reservation_leaked :
    (processFile stdCfg stdPaths okEnv sampleItem []).snd.snd
      = [("zipped", 150)]
    ∧ resGet (processFile stdCfg stdPaths okEnv sampleItem []).snd.snd
        stdPaths.zippedFolder = 150
    ∧ (processFile stdCfg stdPaths okEnv sampleItem []).fst.success
      = true := by
  exact ⟨rfl, rfl, rfl⟩

/-- C1 (counterexample).  With the decompressed hash (2) differing from the
source hash (1) and everything else succeeding, the pipeline still reports
success (the UNZIP_HASH stage only logs a warning), the item is submitted
for upload, the upload succeeds, and the success callback runs
`_cleanup_files`, deleting the item's source data — the state the claim
says is unreachable for a mismatched item. -/
theorem source_deleted_despite_hash_mismatch :
    mismatchEnv.unzipHashVal ≠ mismatchEnv.sourceHashVal
    ∧ (processFile stdCfg stdPaths mismatchEnv sampleItem
        []).fst.hashMismatchWarned = true
    ∧ sourceDeletedInRun stdCfg stdPaths mismatchEnv sampleItem [] = true := by
  exact ⟨by decide, rfl, rfl⟩

/-- C1 (amended).  The post-upload cleanup is not gated on the
decompressed-hash comparison: for any compressible item whose collaborator
operations all succeed (decompressed size matching, artifact present,
upload errno 0; space management disabled so reservations are granted), the
source is deleted whatever the two hash values are, and a mismatch merely
sets the logged warning. -/
theorem cleanup_not_gated_on_hash (cfg : DiskSpaceConfig) (pc : PathCfg)
    (env : PipelineEnv) (rec : ItemRecord) (ledger : Ledger)
    (hcl : rec.classifyResult = "normal_file")
    (hcfg : cfg.enabled = false)
    (hh : env.hashOk = true) (hz : env.zipOk = true)
    (hzh : env.zipHashOk = true) (hu : env.unzipOk = true)
    (huh : env.unzipHashOk = true)
    (hsz : env.unzipSizeVal = rec.itemSize)
    (hart : env.artifactExistsAtUpload = true)
    (herr : env.uploadErrno = 0) :
    sourceDeletedInRun cfg pc env rec ledger = true
    ∧ (processFile cfg pc env rec ledger).fst.hashMismatchWarned
        = decide (env.sourceHashVal ≠ env.unzipHashVal) := by
  unfold sourceDeletedInRun processFile processFileBody createContext
  simp [hcl, hcfg, hh, hz, hzh, hu, huh, hsz, hart, herr,
    processHashStage, processZipStage, processZipHashStage,
    processUnzipStage, processUnzipHashStage, reserveSpace,
    calculateRequiredSpace, releaseReservation, executeUpload]

/-- C1 (amended, witness): the mismatch environment with space management
disabled deletes the source and records the warning. -/
theorem cleanup_not_gated_on_hash_witness :
    sourceDeletedInRun disabledCfg stdPaths mismatchEnv sampleItem [] = true
    ∧ (processFile disabledCfg stdPaths mismatchEnv sampleItem
        []).fst.hashMismatchWarned
      = decide (mismatchEnv.sourceHashVal ≠ mismatchEnv.unzipHashVal) :=
  cleanup_not_gated_on_hash disabledCfg stdPaths mismatchEnv sampleItem []
    rfl rfl rfl rfl rfl rfl rfl rfl rfl rfl

/-! ## Claim theorems: zip determinism -/

/-- Helper: `charListLe` is total. -/
theorem charListLe_total : ∀ x y : List Char,
    charListLe x y = true ∨ charListLe y x = true := by
  intro x
  induction x with
  | nil => intro y; left; rfl
  | cons a as ih =>
    intro y
    cases y with
    | nil => right; rfl
    | cons b bs =>
      rcases lt_trichotomy a b with h | h | h
      · left; simp [charListLe, h]
      · subst h
        rcases ih bs with h2 | h2
        · left; simp [charListLe, h2]
        · right; simp [charListLe, h2]
      · right; simp [charListLe, h]

/-- Helper: `charListLe` is antisymmetric. -/
theorem charListLe_antisymm : ∀ x y : List Char,
    charListLe x y = true → charListLe y x = true → x = y := by
  intro x
  induction x with
  | nil =>
    intro y _ h2
    cases y with
    | nil => rfl
    | cons b bs => simp [charListLe] at h2
  | cons a as ih =>
    intro y h1 h2
    cases y with
    | nil => simp [charListLe] at h1
    | cons b bs =>
      simp only [charListLe, Bool.or_eq_true, Bool.and_eq_true,
        beq_iff_eq, decide_eq_true_eq] at h1 h2
      rcases h1 with h1 | ⟨hab, h1⟩
      · rcases h2 with h2 | ⟨hba, h2⟩
        · exact absurd h2 (not_lt.mpr h1.le)
        · exact absurd h1 (by simp [hba])
      · subst hab
        rcases h2 with h2 | ⟨_, h2⟩
        · exact absurd h2 (lt_irrefl a)
        · rw [ih bs h1 h2]

/-- Helper: `charListLe` is transitive. -/
theorem charListLe_trans : ∀ x y z : List Char,
    charListLe x y = true → charListLe y z = true →
    charListLe x z = true := by
  intro x
  induction x with
  | nil => intro y z _ _; rfl
  | cons a as ih =>
    intro y z h1 h2
    cases y with
    | nil => simp [charListLe] at h1
    | cons b bs =>
      cases z with
      | nil => simp [charListLe] at h2
      | cons c cs =>
        simp only [charListLe, Bool.or_eq_true, Bool.and_eq_true,
          beq_iff_eq, decide_eq_true_eq] at h1 h2 ⊢
        rcases h1 with h1 | ⟨hab, h1⟩
        · rcases h2 with h2 | ⟨hbc, h2⟩
          · exact Or.inl (h1.trans h2)
          · exact Or.inl (hbc ▸ h1)
        · subst hab
          rcases h2 with h2 | ⟨hbc, h2⟩
          · exact Or.inl h2
          · exact Or.inr ⟨hbc, ih bs cs h1 h2⟩

/-- Helper: two lists that are permutations of each other and both pairwise
ordered by an asymmetric relation are equal. -/
theorem eq_of_perm_of_pairwise_asymm {α : Type} {s : α → α → Prop}
    (hasymm : ∀ a b, s a b → s b a → False) :
    ∀ {l1 l2 : List α}, l1.Perm l2 → l1.Pairwise s → l2.Pairwise s →
      l1 = l2 := by
  intro l1
  induction l1 with
  | nil =>
    intro l2 hp _ _
    exact (List.Perm.eq_nil hp.symm).symm
  | cons a t1 ih =>
    intro l2 hp h1 h2
    cases l2 with
    | nil => exact absurd (List.Perm.eq_nil hp) (by simp)
    | cons b t2 =>
      by_cases hab : a = b
      · subst hab
        rw [ih hp.cons_inv (List.Pairwise.of_cons h1)
          (List.Pairwise.of_cons h2)]
      · exfalso
        have haT2 : a ∈ t2 := by
          rcases List.mem_cons.mp (hp.subset (List.mem_cons_self a t1)) with
            h | h
          · exact absurd h hab
          · exact h
        have hba : s b a := (List.pairwise_cons.mp h2).1 a haT2
        have hbT1 : b ∈ t1 := by
          rcases List.mem_cons.mp (hp.symm.subset (List.mem_cons_self b t2))
            with h | h
          · exact absurd h.symm hab
          · exact h
        have hab2 : s a b := (List.pairwise_cons.mp h1).1 b hbT1
        exact hasymm a b hab2 hba

/-- C8.  `zip_item` is a deterministic function of the archive's content
and password: when the directory walk yields the same files in any order
(a permutation) and the lowercased arcnames are pairwise distinct, the
sorted entry list — and with it the whole archive value — is identical, so
the compressed-artifact hash is stable across retries; and the encryption
salt is exactly the configured per-key-length table entry, never a random
draw. -/
theorem zip_item_deterministic (files1 files2 : List ZipEntry)
    (password : Option String) (level saltLength : Nat)
    (hperm : files1.Perm files2)
    (hkeys : files1.Pairwise (fun a b => zipSortKey a ≠ zipSortKey b)) :
    zipItem files1 password level saltLength
      = zipItem files2 password level saltLength
    ∧ (zipItem files1 password level saltLength).salt
        = (match password with
           | some _ => zipConfigSalt saltLength
           | none => none) := by
  have hsymm : ∀ {a b : ZipEntry},
      zipSortKey a ≠ zipSortKey b → zipSortKey b ≠ zipSortKey a :=
    fun h e => h e.symm
  haveI : IsTotal ZipEntry
      (fun a b => charListLe (zipSortKey a) (zipSortKey b) = true) :=
    ⟨fun a b => charListLe_total (zipSortKey a) (zipSortKey b)⟩
  haveI : IsTrans ZipEntry
      (fun a b => charListLe (zipSortKey a) (zipSortKey b) = true) :=
    ⟨fun a b c => charListLe_trans (zipSortKey a) (zipSortKey b)
      (zipSortKey c)⟩
  have hp1 := List.perm_insertionSort
    (fun a b => charListLe (zipSortKey a) (zipSortKey b) = true) files1
  have hp2 := List.perm_insertionSort
    (fun a b => charListLe (zipSortKey a) (zipSortKey b) = true) files2
  have hs1 := List.sorted_insertionSort
    (fun a b => charListLe (zipSortKey a) (zipSortKey b) = true) files1
  have hs2 := List.sorted_insertionSort
    (fun a b => charListLe (zipSortKey a) (zipSortKey b) = true) files2
  have hne1 : (List.insertionSort
      (fun a b => charListLe (zipSortKey a) (zipSortKey b) = true)
      files1).Pairwise (fun a b => zipSortKey a ≠ zipSortKey b) :=
    (hp1.pairwise_iff hsymm).mpr hkeys
  have hne2 : (List.insertionSort
      (fun a b => charListLe (zipSortKey a) (zipSortKey b) = true)
      files2).Pairwise (fun a b => zipSortKey a ≠ zipSortKey b) :=
    (hp2.pairwise_iff hsymm).mpr ((hperm.pairwise_iff hsymm).mp hkeys)
  have hent : addDirectoryToZip files1 = addDirectoryToZip files2 := by
    apply eq_of_perm_of_pairwise_asymm
      (s := fun a b => (charListLe (zipSortKey a) (zipSortKey b) = true)
        ∧ zipSortKey a ≠ zipSortKey b)
    · rintro a b ⟨hle1, hne⟩ ⟨hle2, _⟩
      exact hne (charListLe_antisymm (zipSortKey a) (zipSortKey b) hle1 hle2)
    · exact hp1.trans (hperm.trans hp2.symm)
    · exact hs1.and hne1
    · exact hs2.and hne2
  exact ⟨by simp [zipItem, addDirectoryToZip] at hent ⊢; rw [hent], rfl⟩

/-- C8 (witness): the two-file directory listed in either traversal order
encodes to the identical archive, with the fixed 16-byte salt. -/
theorem zip_item_deterministic_witness :
    zipItem [⟨"B", [1]⟩, ⟨"a", [2]⟩] (some "H_x123456789") 0 16
      = zipItem [⟨"a", [2]⟩, ⟨"B", [1]⟩] (some "H_x123456789") 0 16
    ∧ (zipItem [⟨"B", [1]⟩, ⟨"a", [2]⟩] (some "H_x123456789") 0 16).salt
        = zipConfigSalt 16 :=
  zip_item_deterministic [⟨"B", [1]⟩, ⟨"a", [2]⟩] [⟨"a", [2]⟩, ⟨"B", [1]⟩]
    (some "H_x123456789") 0 16 (by decide) (by decide)

end ItemBackup
